import Mathlib

/-!
Verification development for the ArchAI Studio application core:
mask binarization, provider request construction, retry semantics,
and the bounded undo-history state machine.

Each definition is a shallow embedding of the corresponding function
from the application source (`App.tsx`, `EnhanceTab`, `geminiService.ts`,
`openaiService.ts`, `constants.ts`).
-/

namespace ArchAI

/-- `ImageFile` from `types.ts`: a base64 payload with MIME type and name. -/
structure ImageFile where
  base64 : String
  mimeType : String
  name : String
deriving Repr, DecidableEq

/-- `GeneratedOutput.type` from `types.ts`. -/
inductive OutputType where
  | create
  | enhance
deriving Repr, DecidableEq

/-- `GeneratedOutput` from `types.ts`. Optional (possibly-undefined or null)
fields are modelled with `Option`. -/
structure GeneratedOutput where
  type : OutputType
  prompt : String
  style : String
  resolution : Option String
  inputImage : Option String
  outputImage : String
  overlayImage : Option String
  maskImage : Option String
  intensity : Option Nat
deriving Repr, DecidableEq

/-- The `View` union type in `App.tsx`. -/
inductive View where
  | create
  | enhance
deriving Repr, DecidableEq

/-- `MAX_UNDO_STEPS` from `constants.ts`. -/
def MAX_UNDO_STEPS : Nat := 10

/-- The slice of `App` component state that the undo/continue/send-to-enhance
handlers in `App.tsx` read and write. -/
structure AppState where
  inputImage : Option ImageFile
  overlayImage : Option ImageFile
  undoHistory : List ImageFile
  view : View
  isResultModalOpen : Bool
  generatedOutput : Option GeneratedOutput
deriving Repr, DecidableEq

/-- `addImageToUndoHistory` from `App.tsx`: ignore a null image, otherwise
prepend and truncate the history to `MAX_UNDO_STEPS` entries. -/
def addImageToUndoHistory (image : Option ImageFile) (history : List ImageFile) :
    List ImageFile :=
  match image with
  | none => history
  | some img =>
    let newHistory := img :: history
    if newHistory.length > MAX_UNDO_STEPS then newHistory.take MAX_UNDO_STEPS
    else newHistory

/-- `handleSetInputImage` from `App.tsx`: push the current base image to the
undo history, set the new image, clear the overlay. -/
def handleSetInputImage (file : Option ImageFile) (s : AppState) : AppState :=
  { s with
    undoHistory := addImageToUndoHistory s.inputImage s.undoHistory
    inputImage := file
    overlayImage := none }

/-- `handleUndo` from `App.tsx`. -/
def handleUndo (s : AppState) : AppState :=
  match s.undoHistory with
  | [] => s
  | lastImage :: rest =>
    { s with inputImage := some lastImage, undoHistory := rest, overlayImage := none }

/-- `handleContinueEditing` from `App.tsx`: if a result with a (truthy, i.e.
nonempty) output image is present, push the current base image, adopt the
result output as the new base image, clear the overlay, switch to the
enhance view and close the modal. -/
def handleContinueEditing (s : AppState) : AppState :=
  match s.generatedOutput with
  | none => s
  | some g =>
    if g.outputImage = "" then s
    else
      { s with
        undoHistory := addImageToUndoHistory s.inputImage s.undoHistory
        inputImage := some ⟨g.outputImage, "image/png", "edited-result.png"⟩
        overlayImage := none
        view := View.enhance
        isResultModalOpen := false }

/-- `handleSendToEnhance` from `App.tsx`: only for create results with a
truthy output image; adopt the output as the new base image, reset the undo
history to empty, clear the overlay, switch to the enhance view and close
the modal. -/
def handleSendToEnhance (s : AppState) : AppState :=
  match s.generatedOutput with
  | none => s
  | some g =>
    if g.type = OutputType.create ∧ g.outputImage ≠ "" then
      { s with
        inputImage := some ⟨g.outputImage, "image/png", "generated-image.png"⟩
        undoHistory := []
        overlayImage := none
        view := View.enhance
        isResultModalOpen := false }
    else s

/-- A sequence of pushes onto the undo history, each through
`addImageToUndoHistory` with a present image. -/
def pushAll (history : List ImageFile) (images : List ImageFile) : List ImageFile :=
  images.foldl (fun h i => addImageToUndoHistory (some i) h) history

/-- One RGBA pixel of a canvas `ImageData` buffer. -/
structure Pixel where
  r : Nat
  g : Nat
  b : Nat
  a : Nat
deriving Repr, DecidableEq

/-- The pixel written by `getMaskAsImageFile` for a drawn-on source pixel. -/
def whitePixel : Pixel := ⟨255, 255, 255, 255⟩

/-- The pixel written by `getMaskAsImageFile` for an untouched source pixel. -/
def blackPixel : Pixel := ⟨0, 0, 0, 255⟩

/-- The per-pixel body of the binarization loop in `getMaskAsImageFile`:
alpha above zero becomes opaque white, alpha zero becomes opaque black. -/
def binarizePixel (p : Pixel) : Pixel :=
  if p.a > 0 then whitePixel else blackPixel

/-- `getMaskAsImageFile` from the `EnhanceTab` component, at the pixel level
(the surrounding PNG encoding is external canvas plumbing). A canvas with
zero width or height yields no mask; a buffer whose every alpha is zero
yields no mask; otherwise every pixel is binarized into a same-size opaque
black/white buffer. -/
def getMaskAsImageFile (width height : Nat) (pixelData : List Pixel) :
    Option (List Pixel) :=
  if width = 0 ∨ height = 0 then none
  else if pixelData.all (fun p => p.a == 0) then none
  else some (pixelData.map binarizePixel)

/-- The outcome trace of `withRetry`: the final result, the list of backoff
waits (in ms) performed between attempts, and the number of times the
wrapped operation was invoked. -/
structure RetryTrace (A : Type) where
  result : Except String A
  waits : List Nat
  calls : Nat
deriving Repr

/-- The `while (attempt < retries)` loop of `withRetry` (identical in
`geminiService.ts` and `openaiService.ts`). The wrapped operation is
modelled as a function from the invocation index to its outcome; the
cooperative `delay` calls are recorded in the trace. -/
def withRetryGo (fn : Nat → Except String A) (retries initialDelay : Nat)
    (attempt : Nat) (waits : List Nat) (calls : Nat) : RetryTrace A :=
  if _h : attempt < retries then
    match fn calls with
    | Except.ok v => ⟨Except.ok v, waits, calls + 1⟩
    | Except.error e =>
      if attempt + 1 ≥ retries then ⟨Except.error e, waits, calls + 1⟩
      else
        withRetryGo fn retries initialDelay (attempt + 1)
          (waits ++ [initialDelay * 2 ^ (attempt + 1 - 1)]) (calls + 1)
  else ⟨Except.error "Exceeded max retries", waits, calls⟩
termination_by retries - attempt

/-- `withRetry` with its default parameters (`retries = 3`,
`initialDelay = 1000`). -/
def withRetry (fn : Nat → Except String A) : RetryTrace A :=
  withRetryGo fn 3 1000 0 [] 0

/-- A `Part` of a Gemini multimodal message (`@google/genai`): either text
or inline image data. -/
inductive GenPart where
  | text (s : String)
  | inlineData (file : ImageFile)
deriving Repr, DecidableEq

/-- `fileToGenerativePart` from `geminiService.ts`. -/
def fileToGenerativePart (file : ImageFile) : GenPart :=
  GenPart.inlineData file

/-- How far a service operation gets before its first suspension on the
network: either it throws during the pre-flight phase (before any network
call is attempted), or it reaches the remote call carrying request `Req`. -/
inductive ServiceCall (Req : Type) where
  | preflightFailure (message : String)
  | networkRequest (req : Req)
deriving Repr

/-- Whether a `ServiceCall` failed before reaching the network. -/
def ServiceCall.isPreflightFailure : ServiceCall Req → Bool
  | ServiceCall.preflightFailure _ => true
  | ServiceCall.networkRequest _ => false

/-- The fixed in-painting preamble text from `editImage` in
`geminiService.ts`. -/
def geminiMaskPreamble : String :=
  "You are a precise in-painting AI assistant. Your task is to edit an image only within a specified area defined by a mask.\n- You will be given a base image and a corresponding mask image.\n- The mask image is black and white. You MUST ONLY edit the pixels in the base image that correspond to the WHITE areas in the mask.\n- The BLACK areas of the mask indicate parts of the image that MUST NOT be changed under any circumstances.\n- You will then be given a text prompt describing the change to make.\n\nHere is the base image:"

/-- The `instructionText` built in the maskless branch of `editImage` in
`geminiService.ts`: the free-text instruction, plus the intensity qualifier
when `intensity` is truthy (present and nonzero). -/
def geminiInstructionText (prompt : String) (intensity : Option Nat) : String :=
  let base := "Editing instructions: \"" ++ prompt ++ "\"."
  match intensity with
  | none => base
  | some n =>
    if n ≠ 0 then
      base ++ " The modification intensity should be around " ++ toString n ++ "%."
    else base

/-- The ordered part list assembled by `editImage` in `geminiService.ts`. -/
def geminiEditParts (baseImage : ImageFile) (prompt : String)
    (overlayImage : Option ImageFile) (intensity : Option Nat)
    (maskImage : Option ImageFile) : List GenPart :=
  match maskImage with
  | some mask =>
    [GenPart.text geminiMaskPreamble,
     fileToGenerativePart baseImage,
     GenPart.text "And here is the mask. Remember: ONLY edit the white areas.",
     fileToGenerativePart mask]
    ++ (match overlayImage with
        | some ov =>
          [GenPart.text "You are also provided with an overlay image. Integrate this object into the white masked area according to the prompt.",
           fileToGenerativePart ov]
        | none => [])
    ++ [GenPart.text ("Now, apply the following instruction to the white masked area of the base image: \"" ++ prompt ++ "\"")]
  | none =>
    [GenPart.text "You are an expert image editor. Edit the following image based on the text prompt.",
     fileToGenerativePart baseImage]
    ++ (match overlayImage with
        | some ov =>
          [GenPart.text "Integrate this overlay object into the scene, following the text instructions.",
           fileToGenerativePart ov]
        | none => [])
    ++ [GenPart.text (geminiInstructionText prompt intensity)]

/-- The `styleInstruction` of `refineTextPrompt` (same text in both
services). -/
def refineStyleInstruction (context : String) : String :=
  if context = "No predefined style" then
    "Based on the user\x27s prompt, feel free to suggest appropriate and creative architectural styles."
  else
    "Incorporate the style: \"" ++ context ++ "\"."

/-- The `fullPrompt` of `refineTextPrompt` in `geminiService.ts`. -/
def geminiRefineFullPrompt (prompt context : String) : String :=
  "You are an expert architectural visualization assistant. Your task is to refine a user\x27s prompt to be more descriptive and evocative for an AI image generator.\n"
  ++ refineStyleInstruction context
  ++ "\nUser prompt: \"" ++ prompt ++ "\"\nPlease provide 3 distinct, creative, and detailed suggestions."

/-- `generateImageFromText` from `geminiService.ts` up to its first network
call: there is no credential pre-flight check (a missing `API_KEY` only
logs a warning at module load), so the remote call is always attempted. -/
def geminiGenerateImageFromText (apiKey : String) (prompt : String) :
    ServiceCall (List GenPart) :=
  ServiceCall.networkRequest [GenPart.text prompt]

/-- `editImage` from `geminiService.ts` up to its first network call: no
pre-flight check, the assembled part list is always dispatched. -/
def geminiEditImage (apiKey : String) (baseImage : ImageFile) (prompt : String)
    (overlayImage : Option ImageFile) (intensity : Option Nat)
    (maskImage : Option ImageFile) : ServiceCall (List GenPart) :=
  ServiceCall.networkRequest
    (geminiEditParts baseImage prompt overlayImage intensity maskImage)

/-- `refineTextPrompt` from `geminiService.ts` up to its first network call:
no pre-flight check, the full prompt is always dispatched. -/
def geminiRefineTextPrompt (apiKey : String) (prompt context : String) :
    ServiceCall String :=
  ServiceCall.networkRequest (geminiRefineFullPrompt prompt context)

/-- The JSON body sent by `refineTextPrompt` in `openaiService.ts`. -/
structure OpenAIChatRequest where
  model : String
  content : String
  responseFormatType : String
  n : Nat
deriving Repr, DecidableEq

/-- The JSON body sent by `generateImageFromText` in `openaiService.ts`. -/
structure OpenAIGenRequest where
  model : String
  prompt : String
  n : Nat
  size : String
  responseFormat : String
  quality : String
  style : String
deriving Repr, DecidableEq

/-- The multipart form body sent by `editImage` in `openaiService.ts`. -/
structure OpenAIEditRequest where
  image : ImageFile
  mask : ImageFile
  prompt : String
  n : String
  size : String
  responseFormat : String
deriving Repr, DecidableEq

/-- The `fullPrompt` of `refineTextPrompt` in `openaiService.ts`. -/
def openaiRefineFullPrompt (prompt context : String) : String :=
  "You are an expert architectural visualization assistant. Your task is to refine a user\x27s prompt to be more descriptive and evocative for an AI image generator.\n"
  ++ refineStyleInstruction context
  ++ "\nUser prompt: \"" ++ prompt ++ "\"\nPlease provide 3 distinct, creative, and detailed suggestions in a JSON object with a key \"suggestions\" which is an array of strings. For example: \x7b\"suggestions\": [\"suggestion 1\", \"suggestion 2\", \"suggestion 3\"]\x7d"

/-- `refineTextPrompt` from `openaiService.ts` up to its first network call:
a falsy (empty) `API_KEY` throws before any network attempt. -/
def openaiRefineTextPrompt (apiKey : String) (prompt context : String) :
    ServiceCall OpenAIChatRequest :=
  if apiKey = "" then
    ServiceCall.preflightFailure "OpenAI API key is not configured."
  else
    ServiceCall.networkRequest ⟨"gpt-4o", openaiRefineFullPrompt prompt context, "json_object", 1⟩

/-- `generateImageFromText` from `openaiService.ts` up to its first network
call. -/
def openaiGenerateImageFromText (apiKey : String) (prompt : String) :
    ServiceCall OpenAIGenRequest :=
  if apiKey = "" then
    ServiceCall.preflightFailure "OpenAI API key is not configured."
  else
    ServiceCall.networkRequest ⟨"dall-e-3", prompt, 1, "1024x1024", "b64_json", "hd", "vivid"⟩

/-- `editImage` from `openaiService.ts` up to its first network call: missing
key, a present overlay image, and a missing mask each throw before any
network attempt; otherwise the form-encoded in-painting request is built. -/
def openaiEditImage (apiKey : String) (baseImage : ImageFile) (prompt : String)
    (overlayImage : Option ImageFile) (intensity : Option Nat)
    (maskImage : Option ImageFile) : ServiceCall OpenAIEditRequest :=
  if apiKey = "" then
    ServiceCall.preflightFailure "OpenAI API key is not configured."
  else if overlayImage.isSome then
    ServiceCall.preflightFailure "Overlay images are not supported by the OpenAI provider. Please remove the overlay image and try again."
  else
    match maskImage with
    | none =>
      ServiceCall.preflightFailure "The OpenAI provider requires a mask for image editing. Please use the \x27Guided Edit\x27 mode, draw on the image to create a mask, and provide instructions."
    | some mask =>
      ServiceCall.networkRequest ⟨baseImage, mask, prompt, "1", "1024x1024", "b64_json"⟩

/-- The shared tail of `refineTextPrompt` in `geminiService.ts`: the response
text may be absent (`response.text` undefined); `parsed` is the outcome of
`JSON.parse` plus the `suggestions` array checks (`some l` when a
`suggestions` array `l` was extracted, `none` when parsing threw or the
field was missing or not an array). With text present, a successful parse of
a nonempty list yields its first three entries and every other case falls
back to the single trimmed raw text; with the text absent, the fallback
itself crashes reading `.trim` of `undefined`, so the call throws. -/
def geminiRefineResult (text : Option String) (parsed : Option (List String)) :
    Except String (List String) :=
  match text with
  | none => Except.error "TypeError: cannot read trim of undefined"
  | some raw =>
    match parsed with
    | some suggestions =>
      if suggestions.length > 0 then Except.ok (suggestions.take 3)
      else Except.ok [raw.trim]
    | none => Except.ok [raw.trim]

/-- The shared tail of `refineTextPrompt` in `openaiService.ts`, with the
same shape as `geminiRefineResult`: `content` is
`data.choices[0]?.message?.content`; when it is absent the `catch` block
evaluates `content.trim()` on `undefined` and the call throws. -/
def openaiRefineResult (content : Option String) (parsed : Option (List String)) :
    Except String (List String) :=
  match content with
  | none => Except.error "TypeError: cannot read trim of undefined"
  | some raw =>
    match parsed with
    | some suggestions =>
      if suggestions.length > 0 then Except.ok (suggestions.take 3)
      else Except.ok [raw.trim]
    | none => Except.ok [raw.trim]

/-- `ENHANCE_STYLE_OPTIONS` from `constants.ts`, as an association list in
source order. -/
def ENHANCE_STYLE_OPTIONS : List (String × String) :=
  [("Standard Clarity", "Apply standard photorealistic clarity and sharpness."),
   ("Golden Hour", "Bathe the scene in warm, golden hour light with long, soft shadows."),
   ("Twilight", "Create a cool, moody twilight atmosphere with artificial lights on."),
   ("Diffuse Light", "Simulate an overcast day with soft, diffuse lighting and minimal shadows."),
   ("Dramatic Night", "Transform the scene to a dramatic night view with strategic architectural lighting and deep shadows."),
   ("Morning Fog", "Envelop the scene in a soft, ethereal morning fog, with light filtering through."),
   ("Rainy Day", "Create a moody, atmospheric rainy day scene with wet, reflective surfaces and soft light."),
   ("Winter Snow", "Cover the scene in a peaceful blanket of fresh snow under a soft winter light."),
   ("Cinematic Contrast", "Add high-contrast, cinematic lighting with a slightly desaturated, filmic look."),
   ("Film Sims: Classic Chrome", "Emulate a classic chrome film stock with muted tones and high contrast."),
   ("Film Sims: Portra 400", "Emulate a Portra 400 film stock with warm tones and natural skin rendering."),
   ("Film Sims: Cinestill 800T", "Emulate a Cinestill 800T film stock, perfect for night scenes with halation effects on lights."),
   ("Pro Corrections: HDR", "Apply High Dynamic Range correction to balance highlights and shadows."),
   ("Pro Corrections: B&W", "Convert to a dramatic, high-contrast black and white architectural photograph."),
   ("Pro Corrections: Vibrant Clarity", "Boost vibrancy and local contrast for a punchy, clear image."),
   ("Pro Corrections: Soft Dreamy", "Add a soft, dreamy, slightly overexposed glow to the image."),
   ("Pro Corrections: Architectural Digest", "Give the image a polished, high-end look suitable for an Architectural Digest cover, with perfect lighting and composition."),
   ("Artistic Styles: Blueprint", "Render the image in a technical blueprint style."),
   ("Artistic Styles: Watercolor", "Transform the image into an artistic watercolor painting."),
   ("Artistic Styles: Oil Painting", "Transform the image into a textured oil painting."),
   ("Artistic Styles: Clay Model", "Render the image as a monochromatic clay model to emphasize form and shadow."),
   ("Artistic Styles: Line Drawing", "Overlay a clean, technical line drawing style on top of the rendering.")]

/-- The two modes of the `EnhanceTab` component. -/
inductive Mode where
  | enhance
  | edit
deriving Repr, DecidableEq

/-- The argument tuple the `EnhanceTab` passes to `onProcess`
(`handleEnhanceProcess` in `App.tsx`). The prompt is `Option String`
because `ENHANCE_STYLE_OPTIONS[enhanceStyle]` is `undefined` for an unknown
key. -/
structure ProcessArgs where
  prompt : Option String
  style : String
  intensity : Nat
  overlayImageFile : Option ImageFile
  maskImageFile : Option ImageFile
deriving Repr, DecidableEq

/-- `handleProcess` from the `EnhanceTab` component: no-op without a base
image; in enhance mode submit the selected style description with intensity
100 and neither overlay nor mask; in edit mode require a nonempty prompt and
submit the free text with the current intensity, overlay and derived mask.
`maskFile` stands for the value of `getMaskAsImageFile()` at submit time. -/
def handleProcess (inputImage : Option ImageFile) (mode : Mode)
    (enhanceStyle : String) (editPrompt : String) (intensity : Nat)
    (overlayImage : Option ImageFile) (maskFile : Option ImageFile) :
    Option ProcessArgs :=
  match inputImage with
  | none => none
  | some _ =>
    match mode with
    | Mode.enhance =>
      some ⟨ENHANCE_STYLE_OPTIONS.lookup enhanceStyle, enhanceStyle, 100, none, none⟩
    | Mode.edit =>
      if editPrompt = "" then none
      else some ⟨some editPrompt, "Guided Edit", intensity, overlayImage, maskFile⟩

/-- A concrete image asset used to instantiate the theorems. -/
def exImageA : ImageFile := ⟨"QUFB", "image/png", "a.png"⟩

/-- A second concrete image asset. -/
def exImageB : ImageFile := ⟨"QkJC", "image/jpeg", "b.jpg"⟩

/-- Eleven distinct concrete images, for exercising the history bound. -/
def exImages : List ImageFile :=
  (List.range 11).map (fun i => ⟨toString i, "image/png", "h.png"⟩)

/-- A state whose base image is present and whose history is empty. -/
def c3State : AppState :=
  ⟨some exImageA, none, [], View.enhance, false, none⟩

/-- A concrete enhance-kind result. -/
def exEnhanceResult : GeneratedOutput :=
  ⟨OutputType.enhance, "make the walls white", "Guided Edit", none,
   some "QUFB", "T1VU", none, none, some 50⟩

/-- A concrete create-kind result. -/
def exCreateResult : GeneratedOutput :=
  ⟨OutputType.create, "a house", "Modernist", some "1024x1024",
   none, "T1VU", none, none, none⟩

/-- A state holding an enhance result whose undo history is already at the
`MAX_UNDO_STEPS` capacity. -/
def c9State : AppState :=
  ⟨some exImageB, none, List.replicate 10 exImageA, View.enhance, true,
   some exEnhanceResult⟩

/-- An operation that fails on its first two invocations and succeeds on the
third. -/
def retrySucceedsFn : Nat → Except String Nat :=
  fun n => if n = 2 then Except.ok 37 else Except.error "boom"

/-- An operation that fails on every invocation, with distinct errors. -/
def retryFailsFn : Nat → Except String Nat :=
  fun n => if n = 0 then Except.error "e0"
    else if n = 1 then Except.error "e1"
    else Except.error "e2"

end ArchAI

namespace ArchAI

theorem addImageToUndoHistory_some_eq_take (img : ImageFile) (h : List ImageFile) :
    addImageToUndoHistory (some img) h = (img :: h).take MAX_UNDO_STEPS := by
  unfold addImageToUndoHistory
  by_cases hlen : (img :: h).length > MAX_UNDO_STEPS
  · simp [hlen]
  · simp only [hlen, if_false, if_neg hlen]
    exact (List.take_of_length_le (Nat.le_of_not_lt hlen)).symm

theorem take_append_take (n : Nat) (a b : List ImageFile) :
    (a ++ b.take n).take n = (a ++ b).take n := by
  rw [List.take_append_eq_append_take, List.take_append_eq_append_take,
    List.take_take]
  congr 1
  exact congrArg (fun m => b.take m) (Nat.min_eq_left (Nat.sub_le n a.length))

theorem pushAll_eq_take (history images : List ImageFile)
    (hh : history.length ≤ MAX_UNDO_STEPS) :
    pushAll history images = (images.reverse ++ history).take MAX_UNDO_STEPS := by
  induction images generalizing history with
  | nil =>
    simp only [pushAll, List.foldl_nil, List.reverse_nil, List.nil_append]
    exact (List.take_of_length_le hh).symm
  | cons x xs ih =>
    have hstep : pushAll history (x :: xs)
        = pushAll ((x :: history).take MAX_UNDO_STEPS) xs := by
      simp only [pushAll, List.foldl_cons, addImageToUndoHistory_some_eq_take]
    rw [hstep, ih _ (by simp),
      take_append_take, List.reverse_cons, List.append_assoc, List.singleton_append]

/-- C6: starting from any in-capacity history, any sequence of more than 10
pushes leaves the undo history at exactly length 10, holding the 10 most
recently pushed assets most-recent-first; and no single push ever drives the
length above 10. -/
theorem c6_undoHistory_bound (h0 images : List ImageFile)
    (hh : h0.length ≤ MAX_UNDO_STEPS) (hlen : 10 < images.length) :
    pushAll h0 images = images.reverse.take 10 ∧
    (pushAll h0 images).length = 10 ∧
    (∀ img h, h.length ≤ 10 → (addImageToUndoHistory img h).length ≤ 10) := by
  have h10 : (10 : Nat) ≤ images.reverse.length := by
    simpa using Nat.le_of_lt hlen
  have hmain : pushAll h0 images = images.reverse.take 10 := by
    rw [pushAll_eq_take h0 images hh]
    exact List.take_append_of_le_length h10
  refine ⟨hmain, ?_, ?_⟩
  · rw [hmain, List.length_take]
    exact Nat.min_eq_left h10
  · intro img h hle
    cases img with
    | none => simpa [addImageToUndoHistory] using hle
    | some i =>
      rw [addImageToUndoHistory_some_eq_take, List.length_take]
      exact Nat.min_le_left _ _

/-- C6 witness: eleven pushes onto an empty history leave exactly the ten
most recent images, most recent first. -/
theorem c6_undoHistory_bound_witness :
    pushAll [] exImages = exImages.reverse.take 10 ∧
    (pushAll [] exImages).length = 10 ∧
    (∀ img h, h.length ≤ 10 → (addImageToUndoHistory img h).length ≤ 10) :=
  c6_undoHistory_bound [] exImages (by decide) (by decide)

/-- C10: pushing an absent image onto the undo history is a no-op, and in
particular the very first base-image upload (the current base image being
absent) creates no history entry. -/
theorem c10_null_push_noop (h : List ImageFile) (file : Option ImageFile)
    (s : AppState) (hs : s.inputImage = none) :
    addImageToUndoHistory none h = h ∧
    (handleSetInputImage file s).undoHistory = s.undoHistory ∧
    (handleSetInputImage file s).inputImage = file := by
  refine ⟨rfl, ?_, rfl⟩
  simp [handleSetInputImage, hs, addImageToUndoHistory]

/-- C10 witness: uploading a first image into an empty-base state leaves the
history untouched. -/
theorem c10_null_push_noop_witness :
    addImageToUndoHistory none [exImageA] = [exImageA] ∧
    (handleSetInputImage (some exImageB)
        ⟨none, none, [], View.enhance, false, none⟩).undoHistory
      = (⟨none, none, [], View.enhance, false, none⟩ : AppState).undoHistory ∧
    (handleSetInputImage (some exImageB)
        ⟨none, none, [], View.enhance, false, none⟩).inputImage = some exImageB :=
  c10_null_push_noop [exImageA] (some exImageB) _ rfl

/-- C3 counterexample: clearing the base image (setting it to absent) while
one is present does push the current image onto the undo history — the
history grows from empty to one entry, refuting the claim that clearing
pushes nothing. -/
theorem c3_clear_counterexample :
    c3State.undoHistory = [] ∧
    (handleSetInputImage none c3State).undoHistory = [exImageA] := by
  exact ⟨rfl, rfl⟩

/-- C3 amended: whenever a base image is present, `handleSetInputImage`
pushes it onto the undo history before installing the new value and clearing
the overlay — both when replacing it with a new image and when clearing it;
the push is skipped only when the prior base image was absent. -/
theorem c3_replace_pushes (file : Option ImageFile) (s : AppState)
    (old : ImageFile) (hold : s.inputImage = some old) :
    (handleSetInputImage file s).undoHistory
      = (old :: s.undoHistory).take MAX_UNDO_STEPS ∧
    (handleSetInputImage file s).inputImage = file ∧
    (handleSetInputImage file s).overlayImage = none := by
  refine ⟨?_, rfl, rfl⟩
  simp [handleSetInputImage, hold, addImageToUndoHistory_some_eq_take]

/-- C3 amended witness: replacing the base image of `c3State` pushes the old
image. -/
theorem c3_replace_pushes_witness :
    (handleSetInputImage (some exImageB) c3State).undoHistory
      = (exImageA :: c3State.undoHistory).take MAX_UNDO_STEPS ∧
    (handleSetInputImage (some exImageB) c3State).inputImage = some exImageB ∧
    (handleSetInputImage (some exImageB) c3State).overlayImage = none :=
  c3_replace_pushes (some exImageB) c3State exImageA rfl

/-- C9 counterexample: with the undo history already at capacity 10,
`handleContinueEditing` leaves it at length 10, not at the prior length plus
one. -/
theorem c9_cap_counterexample :
    c9State.undoHistory.length = 10 ∧
    (handleContinueEditing c9State).undoHistory.length = 10 ∧
    (handleContinueEditing c9State).undoHistory.length
      ≠ c9State.undoHistory.length + 1 := by
  refine ⟨rfl, ?_, ?_⟩ <;> decide

/-- C9 amended: `handleSendToEnhance` on a create result always empties the
undo history and installs the result output as the new base image with the
overlay cleared; `handleContinueEditing` on a result with an output image
pushes the current base-image snapshot, leaving the history at
min(prior length + 1, 10) — unchanged if the base image was absent — and
installs the result output with the overlay cleared. -/
theorem c9_lineage (s : AppState) (g : GeneratedOutput)
    (hg : s.generatedOutput = some g) (hout : g.outputImage ≠ "") :
    (g.type = OutputType.create →
       (handleSendToEnhance s).undoHistory = [] ∧
       (handleSendToEnhance s).inputImage
         = some ⟨g.outputImage, "image/png", "generated-image.png"⟩ ∧
       (handleSendToEnhance s).overlayImage = none) ∧
    (handleContinueEditing s).inputImage
      = some ⟨g.outputImage, "image/png", "edited-result.png"⟩ ∧
    (handleContinueEditing s).overlayImage = none ∧
    (∀ cur, s.inputImage = some cur →
       (handleContinueEditing s).undoHistory
         = (cur :: s.undoHistory).take MAX_UNDO_STEPS ∧
       (handleContinueEditing s).undoHistory.length
         = min (s.undoHistory.length + 1) MAX_UNDO_STEPS) ∧
    (s.inputImage = none →
       (handleContinueEditing s).undoHistory = s.undoHistory) := by
  refine ⟨?_, ?_, ?_, ?_, ?_⟩
  · intro hc
    simp [handleSendToEnhance, hg, hc, hout]
  · simp [handleContinueEditing, hg, hout]
  · simp [handleContinueEditing, hg, hout]
  · intro cur hcur
    constructor
    · simp [handleContinueEditing, hg, hout, hcur, addImageToUndoHistory_some_eq_take]
    · simp [handleContinueEditing, hg, hout, hcur,
        addImageToUndoHistory_some_eq_take, List.length_take, Nat.min_comm]
  · intro hnone
    simp [handleContinueEditing, hg, hout, hnone, addImageToUndoHistory]

/-- C9 amended witness: at the capacity-10 state, continue-editing keeps the
history at 10 entries with the snapshot at the head, and send-to-enhance
from a create result empties it. -/
theorem c9_lineage_witness :
    ((handleContinueEditing c9State).undoHistory
        = (exImageB :: c9State.undoHistory).take MAX_UNDO_STEPS ∧
      (handleContinueEditing c9State).undoHistory.length
        = min (c9State.undoHistory.length + 1) MAX_UNDO_STEPS) ∧
    (handleSendToEnhance
        ⟨some exImageA, none, [exImageB], View.create, true, some exCreateResult⟩).undoHistory
      = [] :=
  ⟨(c9_lineage c9State exEnhanceResult rfl (by decide)).2.2.2.1 exImageB rfl,
   ((c9_lineage
        ⟨some exImageA, none, [exImageB], View.create, true, some exCreateResult⟩
        exCreateResult rfl (by decide)).1 rfl).1⟩

/-- C2: for any canvas buffer, the derived mask is absent exactly when every
source pixel has zero alpha; otherwise it is a buffer of the same length in
which every source pixel with positive alpha maps to pure opaque white,
every source pixel with zero alpha maps to pure opaque black, and no other
pixel value occurs. -/
theorem c2_binary_mask (width height : Nat) (pixelData : List Pixel)
    (hlen : pixelData.length = width * height) :
    (getMaskAsImageFile width height pixelData = none ↔
       ∀ p ∈ pixelData, p.a = 0) ∧
    (∀ out, getMaskAsImageFile width height pixelData = some out →
       out.length = pixelData.length ∧
       (∀ i (hi : i < pixelData.length) (ho : i < out.length),
          (0 < (pixelData.get ⟨i, hi⟩).a → out.get ⟨i, ho⟩ = whitePixel) ∧
          ((pixelData.get ⟨i, hi⟩).a = 0 → out.get ⟨i, ho⟩ = blackPixel)) ∧
       (∀ q ∈ out, q = whitePixel ∨ q = blackPixel)) := by
  have hall : (pixelData.all (fun p => p.a == 0) = true) ↔ ∀ p ∈ pixelData, p.a = 0 := by
    simp [List.all_eq_true]
  constructor
  · constructor
    · intro hnone
      unfold getMaskAsImageFile at hnone
      by_cases hwh : width = 0 ∨ height = 0
      · have : pixelData.length = 0 := by
          rcases hwh with h0 | h0 <;> simp [hlen, h0]
        intro p hp
        simp [List.length_eq_zero.mp this] at hp
      · rw [if_neg hwh] at hnone
        by_cases hz : pixelData.all (fun p => p.a == 0) = true
        · exact hall.mp hz
        · simp [hz] at hnone
    · intro hzero
      unfold getMaskAsImageFile
      by_cases hwh : width = 0 ∨ height = 0
      · rw [if_pos hwh]
      · rw [if_neg hwh, if_pos (hall.mpr hzero)]
  · intro out hout
    unfold getMaskAsImageFile at hout
    by_cases hwh : width = 0 ∨ height = 0
    · simp [hwh] at hout
    · rw [if_neg hwh] at hout
      by_cases hz : pixelData.all (fun p => p.a == 0) = true
      · simp [hz] at hout
      · simp only [hz, if_false, Bool.false_eq_true, if_neg, Option.some.injEq] at hout
        have hmap : out = pixelData.map binarizePixel := hout.symm
        subst hmap
        refine ⟨List.length_map _ _, ?_, ?_⟩
        · intro i hi ho
          have hget : (pixelData.map binarizePixel).get ⟨i, ho⟩
              = binarizePixel (pixelData.get ⟨i, hi⟩) := by
            simp [List.get_eq_getElem, List.getElem_map]
          constructor
          · intro hpos
            rw [hget]
            unfold binarizePixel
            rw [if_pos hpos]
          · intro hzero
            rw [hget]
            unfold binarizePixel
            rw [if_neg (by omega)]
        · intro q hq
          rcases List.mem_map.mp hq with ⟨p, _, hpq⟩
          by_cases hpa : 0 < p.a
          · left
            rw [← hpq]
            simp [binarizePixel, hpa]
          · right
            rw [← hpq]
            simp [binarizePixel, hpa]

/-- C2 witness: a 2×1 buffer with one untouched and one half-opacity pixel
binarizes to black then white; the all-transparent buffer derives no mask. -/
theorem c2_binary_mask_witness :
    getMaskAsImageFile 2 1 [⟨0, 0, 0, 0⟩, ⟨10, 20, 30, 128⟩]
        = some [blackPixel, whitePixel] ∧
    getMaskAsImageFile 2 1 [⟨0, 0, 0, 0⟩, ⟨0, 0, 0, 0⟩] = none := by
  exact ⟨by decide,
    (c2_binary_mask 2 1 [⟨0, 0, 0, 0⟩, ⟨0, 0, 0, 0⟩] (by decide)).1.mpr (by decide)⟩

/-- C4: with the default parameters, an operation that fails twice and then
succeeds yields the success value after exactly 3 invocations with exactly
the two backoff waits 1000ms then 2000ms; an operation that always fails
propagates its last underlying error unchanged after exactly 3 invocations,
with the same two waits. -/
theorem c4_retry (fn : Nat → Except String A) (v : A) (e0 e1 e2 : String) :
    (fn 0 = Except.error e0 → fn 1 = Except.error e1 → fn 2 = Except.ok v →
       withRetry fn = ⟨Except.ok v, [1000, 2000], 3⟩) ∧
    (fn 0 = Except.error e0 → fn 1 = Except.error e1 → fn 2 = Except.error e2 →
       withRetry fn = ⟨Except.error e2, [1000, 2000], 3⟩) := by
  constructor
  · intro h0 h1 h2
    unfold withRetry
    rw [withRetryGo, h0]
    norm_num
    rw [withRetryGo, h1]
    norm_num
    rw [withRetryGo, h2]
    norm_num
  · intro h0 h1 h2
    unfold withRetry
    rw [withRetryGo, h0]
    norm_num
    rw [withRetryGo, h1]
    norm_num
    rw [withRetryGo, h2]
    norm_num

/-- C4 witness: concrete fail-fail-succeed and always-fail operations. -/
theorem c4_retry_witness :
    withRetry retrySucceedsFn = ⟨Except.ok 37, [1000, 2000], 3⟩ ∧
    withRetry retryFailsFn = ⟨Except.error "e2", [1000, 2000], 3⟩ :=
  ⟨(c4_retry retrySucceedsFn 37 "boom" "boom" "unused").1 rfl rfl rfl,
   (c4_retry retryFailsFn 0 "e0" "e1" "e2").2 rfl rfl rfl⟩

/-- C1 counterexample: the Gemini provider variant performs no credential
pre-flight check — with a missing (empty) API key each of its three
operations still proceeds to the network call instead of failing first. -/
theorem c1_gemini_no_preflight_counterexample :
    (geminiGenerateImageFromText "" "a house").isPreflightFailure = false ∧
    (geminiEditImage "" exImageA "make the walls white" none none
        none).isPreflightFailure = false ∧
    (geminiRefineTextPrompt "" "a house"
        "No predefined style").isPreflightFailure = false :=
  ⟨rfl, rfl, rfl⟩

/-- C1 amended: the OpenAI variant detects a missing key before any network
call on all three operations, with the fixed message
"OpenAI API key is not configured.", which no provider-side rejection
message (all prefixed "OpenAI API Error: ") can equal; the Gemini variant
performs no such pre-flight check and always proceeds to the network. -/
theorem c1_openai_preflight (prompt context : String) (base : ImageFile)
    (ov : Option ImageFile) (n : Option Nat) (mask : Option ImageFile) :
    openaiRefineTextPrompt "" prompt context
      = ServiceCall.preflightFailure "OpenAI API key is not configured." ∧
    openaiGenerateImageFromText ""
        prompt = ServiceCall.preflightFailure "OpenAI API key is not configured." ∧
    openaiEditImage "" base prompt ov n mask
      = ServiceCall.preflightFailure "OpenAI API key is not configured." ∧
    "OpenAI API Error: ".data.isPrefixOf "OpenAI API key is not configured.".data = false ∧
    (geminiGenerateImageFromText "" prompt).isPreflightFailure = false ∧
    (geminiEditImage "" base prompt ov n mask).isPreflightFailure = false ∧
    (geminiRefineTextPrompt "" prompt context).isPreflightFailure = false := by
  refine ⟨rfl, rfl, rfl, by decide, rfl, rfl, rfl⟩

/-- C5 counterexample: an edit intent without a mask does not yield a general
edit request on the OpenAI variant — even with a valid key and no overlay,
it fails before any network call because the edits endpoint requires a
mask. -/
theorem c5_openai_maskless_counterexample :
    openaiEditImage "sk-test" exImageA "make the walls white" none (some 50) none
      = ServiceCall.preflightFailure "The OpenAI provider requires a mask for image editing. Please use the \x27Guided Edit\x27 mode, draw on the image to create a mask, and provide instructions." ∧
    (openaiEditImage "sk-test" exImageA "make the walls white" none (some 50)
        none).isPreflightFailure = true :=
  ⟨rfl, rfl⟩

/-- C5 amended: without a mask, the Gemini variant builds a general edit
request carrying the base image, the overlay whenever one is given, and a
final instruction text holding the free-text prompt plus the
"modification intensity should be around N%" qualifier exactly when the
intensity is present and nonzero; the OpenAI variant instead fails before
any network call, naming the missing mask when no overlay is given. -/
theorem c5_maskless_edit_request (base : ImageFile) (prompt : String)
    (ov : Option ImageFile) (n : Nat) (hn : 0 < n) (apiKey : String)
    (hk : apiKey ≠ "") :
    GenPart.inlineData base ∈ geminiEditParts base prompt ov (some n) none ∧
    (∀ o, ov = some o →
       GenPart.inlineData o ∈ geminiEditParts base prompt ov (some n) none) ∧
    (geminiEditParts base prompt ov (some n) none).getLast?
      = some (GenPart.text ("Editing instructions: \"" ++ prompt ++ "\"."
          ++ " The modification intensity should be around " ++ toString n ++ "%.")) ∧
    (geminiEditParts base prompt ov none none).getLast?
      = some (GenPart.text ("Editing instructions: \"" ++ prompt ++ "\".")) ∧
    (openaiEditImage apiKey base prompt ov (some n) none).isPreflightFailure
      = true ∧
    (ov = none → openaiEditImage apiKey base prompt ov (some n) none
      = ServiceCall.preflightFailure "The OpenAI provider requires a mask for image editing. Please use the \x27Guided Edit\x27 mode, draw on the image to create a mask, and provide instructions.") := by
  have hn0 : n ≠ 0 := Nat.pos_iff_ne_zero.mp hn
  cases ov with
  | none =>
    refine ⟨?_, ?_, ?_, ?_, ?_, ?_⟩
    · simp [geminiEditParts, fileToGenerativePart]
    · intro o ho
      exact absurd ho (by simp)
    · simp [geminiEditParts, geminiInstructionText, hn0]
    · simp [geminiEditParts, geminiInstructionText]
    · simp [openaiEditImage, hk, ServiceCall.isPreflightFailure]
    · intro _
      simp [openaiEditImage, hk]
  | some o =>
    refine ⟨?_, ?_, ?_, ?_, ?_, ?_⟩
    · simp [geminiEditParts, fileToGenerativePart]
    · intro o2 ho2
      rw [Option.some.injEq] at ho2
      subst ho2
      simp [geminiEditParts, fileToGenerativePart]
    · simp [geminiEditParts, geminiInstructionText, hn0]
    · simp [geminiEditParts, geminiInstructionText]
    · simp [openaiEditImage, hk, ServiceCall.isPreflightFailure]
    · intro hcontra
      exact absurd hcontra (by simp)

/-- C5 amended witness: concrete maskless intent with intensity 50 and no
overlay. -/
theorem c5_maskless_edit_request_witness :
    GenPart.inlineData exImageA
        ∈ geminiEditParts exImageA "make the walls white" none (some 50) none ∧
    (∀ o, (none : Option ImageFile) = some o →
       GenPart.inlineData o
         ∈ geminiEditParts exImageA "make the walls white" none (some 50) none) ∧
    (geminiEditParts exImageA "make the walls white" none (some 50) none).getLast?
      = some (GenPart.text ("Editing instructions: \"" ++ "make the walls white"
          ++ "\"." ++ " The modification intensity should be around "
          ++ toString 50 ++ "%.")) ∧
    (geminiEditParts exImageA "make the walls white" none none none).getLast?
      = some (GenPart.text ("Editing instructions: \"" ++ "make the walls white"
          ++ "\".")) ∧
    (openaiEditImage "sk-test" exImageA "make the walls white" none (some 50)
        none).isPreflightFailure = true ∧
    ((none : Option ImageFile) = none →
       openaiEditImage "sk-test" exImageA "make the walls white" none (some 50) none
         = ServiceCall.preflightFailure "The OpenAI provider requires a mask for image editing. Please use the \x27Guided Edit\x27 mode, draw on the image to create a mask, and provide instructions.") :=
  c5_maskless_edit_request exImageA "make the walls white" none 50 (by decide)
    "sk-test" (by decide)

/-- C7: a submit in enhancement mode with a base image present builds the
process call from the selected style entry: its fixed description as the
prompt, intensity forced to 100, and neither mask nor overlay attached. -/
theorem c7_enhance_submit (img : ImageFile) (enhanceStyle d editPrompt : String)
    (intensity : Nat) (overlay maskF : Option ImageFile)
    (hstyle : ENHANCE_STYLE_OPTIONS.lookup enhanceStyle = some d) :
    handleProcess (some img) Mode.enhance enhanceStyle editPrompt intensity
        overlay maskF
      = some ⟨some d, enhanceStyle, 100, none, none⟩ := by
  simp [handleProcess, hstyle]

/-- C7 witness: submitting "Standard Clarity" over a present base image. -/
theorem c7_enhance_submit_witness :
    handleProcess (some exImageA) Mode.enhance "Standard Clarity" "" 50
        (some exImageB) none
      = some ⟨some "Apply standard photorealistic clarity and sharpness.",
          "Standard Clarity", 100, none, none⟩ :=
  c7_enhance_submit exImageA "Standard Clarity"
    "Apply standard photorealistic clarity and sharpness." "" 50 (some exImageB)
    none (by decide)

/-- C8 counterexample: a remote response carrying no text at all cannot be
parsed into a suggestions list, yet the OpenAI variant throws (its fallback
reads `.trim` of the absent content) instead of returning a one-element
list; the Gemini variant behaves the same. -/
theorem c8_no_content_counterexample :
    (openaiRefineResult none none).isOk = false ∧
    (geminiRefineResult none none).isOk = false :=
  ⟨rfl, rfl⟩

/-- C8 amended: whenever the remote response carries text that does not parse
into a nonempty suggestions list (parse error, missing or non-array field,
or an empty array), both variants return the one-element list holding the
trimmed raw response text rather than throwing. -/
theorem c8_refine_fallback (raw : String) (parsed : Option (List String))
    (hfail : parsed = none ∨ parsed = some []) :
    geminiRefineResult (some raw) parsed = Except.ok [raw.trim] ∧
    openaiRefineResult (some raw) parsed = Except.ok [raw.trim] := by
  rcases hfail with h | h <;> subst h <;> exact ⟨rfl, rfl⟩

/-- C8 amended witness: unparseable raw text falls back to a single trimmed
suggestion on both variants. -/
theorem c8_refine_fallback_witness :
    geminiRefineResult (some " not json ") none = Except.ok [" not json ".trim] ∧
    openaiRefineResult (some " not json ") none = Except.ok [" not json ".trim] :=
  c8_refine_fallback " not json " none (Or.inl rfl)

end ArchAI
